import Mathlib

/-!
Verification of the batch quote-normalization layer of the `trader`
repository.

The source of truth is the client-side JavaScript (the serverless
Yahoo-Finance variant): `fetchStockData`, `fetchBatchStocks` and
`fetchIndices`.  We give a shallow embedding: upstream HTTP responses
become an explicit data type, JavaScript numbers become exact rationals
(`ℚ`), a thrown-and-caught exception becomes `Except String`, and the
`null` sentinel returned past the fetcher boundary becomes `Option`.
-/

set_option autoImplicit false

namespace Trader

/-- ECMAScript `x.toFixed(2)` followed by `parseFloat`, on exact decimal
values: round to the nearest multiple of 1/100, ties away from zero
(the ECMA algorithm picks the larger candidate digit string for the
magnitude, after splitting off the sign). -/
def round2 (x : ℚ) : ℚ :=
  if x < 0 then -(((round ((-x) * 100) : ℤ) : ℚ) / 100)
  else ((round (x * 100) : ℤ) : ℚ) / 100

/-- JavaScript `a || b` on two possibly-absent numbers: `undefined`/`null`
are modelled by `none`, and `0` is falsy. -/
def jsOrNum (a b : Option ℚ) : Option ℚ :=
  match a with
  | some x => if x = 0 then b else some x
  | none => b

/-- JavaScript `a || b` on two possibly-absent strings: `undefined`/`null`
are modelled by `none`, and the empty string is falsy. -/
def jsOrStr (a b : Option String) : Option String :=
  match a with
  | some s => if s = "" then b else some s
  | none => b

/-- JavaScript `a || d` where `d` is a plain string literal: the final
fallback of a `||` chain. -/
def jsStrDefault (a : Option String) (d : String) : String :=
  match a with
  | some s => if s = "" then d else s
  | none => d

/-- `result.meta` of the Yahoo chart payload.  Every field the source
reads is optional (`none` = absent in the JSON). -/
structure ChartMeta where
  regularMarketPrice : Option ℚ
  previousClose : Option ℚ
  chartPreviousClose : Option ℚ
  longName : Option String
  shortName : Option String
  exchangeName : Option String
  exchange : Option String
  deriving DecidableEq, Repr

/-- `result.indicators.quote[0]` of the chart payload: per-interval sample
arrays.  An inner `none` is a JSON `null` sample; an outer `none` means
the whole array is absent. -/
structure ChartQuote where
  close : Option (List (Option ℚ))
  high : Option (List (Option ℚ))
  low : Option (List (Option ℚ))
  volume : Option (List (Option ℤ))
  deriving DecidableEq, Repr

/-- `data.chart.result[0]`.  `quote = none` models a malformed
`indicators.quote` path (accessing it throws in the source). -/
structure ChartResult where
  meta : ChartMeta
  quote : Option ChartQuote
  deriving DecidableEq, Repr

/-- One upstream HTTP exchange, as observed by `fetchStockData`:
`ok`/`status` from the `Response`, and the parsed body.
`body = none`: the body failed to parse or `data.chart.result` is not
there (the access throws).  `body = some none`: the payload parsed but
`result[0]` is absent (`!result`).  `body = some (some r)`: a usable
first result entry. -/
structure UpstreamResponse where
  ok : Bool
  status : Nat
  body : Option (Option ChartResult)
  deriving DecidableEq, Repr

/-- The normalized quote record returned by `fetchStockData`.
`high`/`low` are `Option ℚ` because JavaScript `Math.max()` over an
empty spread is `-Infinity` (and `Math.min()` is `+Infinity`), which has
no rational value: `none` encodes that infinite outcome. -/
structure Quote where
  symbol : String
  name : String
  ltp : ℚ
  change : ℚ
  percent : ℚ
  exchange : String
  previousClose : ℚ
  high : Option ℚ
  low : Option ℚ
  volume : ℤ
  deriving DecidableEq, Repr

/-- `quote.close[quote.close.length - 1]`: `undefined` on an empty array,
else the last sample (itself possibly `null`). -/
def lastSample (xs : List (Option ℚ)) : Option ℚ :=
  match xs.getLast? with
  | some v => v
  | none => none

/-- Evaluation of `quote.close[quote.close.length - 1]`: throws a
`TypeError` when the `close` array is absent. -/
def closeLastE (qt : ChartQuote) : Except String (Option ℚ) :=
  match qt.close with
  | none => Except.error "TypeError: Cannot read properties of undefined"
  | some cs => Except.ok (lastSample cs)

/-- `meta.regularMarketPrice || quote.close[quote.close.length - 1]`,
with JavaScript short-circuiting: the close array is only touched when
`regularMarketPrice` is falsy. -/
def currentPriceE (meta : ChartMeta) (qt : ChartQuote) : Except String (Option ℚ) :=
  match meta.regularMarketPrice with
  | some v => if v = 0 then closeLastE qt else Except.ok (some v)
  | none => closeLastE qt

/-- `Math.max(...xs)` over the already-null-filtered samples: `none` is
the `-Infinity` of an empty argument list. -/
def jsMathMax : List ℚ → Option ℚ
  | [] => none
  | x :: xs =>
    match jsMathMax xs with
    | none => some x
    | some m => some (max x m)

/-- `Math.min(...xs)`: `none` is the `+Infinity` of an empty argument
list. -/
def jsMathMin : List ℚ → Option ℚ
  | [] => none
  | x :: xs =>
    match jsMathMin xs with
    | none => some x
    | some m => some (min x m)

/-- `quote.volume.reduce((a, b) => (a || 0) + (b || 0), 0)`: left fold,
`null` samples count as zero. -/
def jsSumVolume (xs : List (Option ℤ)) : ℤ :=
  xs.foldl (fun a b => a + b.getD 0) 0

/-- The object literal returned on the success path of `fetchStockData`,
with `cp` the raw (pre-rounding) current price and `pc` the raw previous
close. -/
def buildQuote (symbol : String) (meta : ChartMeta) (qt : ChartQuote)
    (cp pc : ℚ) : Quote where
  symbol := symbol
  name := jsStrDefault (jsOrStr meta.longName meta.shortName) symbol
  ltp := round2 cp
  change := round2 (cp - pc)
  percent := round2 ((cp - pc) / pc * 100)
  exchange := jsStrDefault (jsOrStr meta.exchangeName meta.exchange) "Unknown"
  previousClose := round2 pc
  high :=
    match qt.high with
    | some hs => jsMathMax (hs.filterMap id)
    | none => some cp
  low :=
    match qt.low with
    | some ls => jsMathMin (ls.filterMap id)
    | none => some cp
  volume :=
    match qt.volume with
    | some vs => jsSumVolume vs
    | none => 0

/-- The `try` body of `fetchStockData`: every `throw` site of the source
becomes an `Except.error` carrying the thrown message.  A `currentPrice`
or `previousClose` that resolves to `null`/`undefined` throws at its
`.toFixed(2)` call inside the returned object literal. -/
def fetchStockDataE (symbol : String) (resp : UpstreamResponse) :
    Except String Quote :=
  if resp.ok = false then
    Except.error ("Failed to fetch " ++ symbol ++ ": " ++ toString resp.status)
  else
    match resp.body with
    | none => Except.error "TypeError: Cannot read properties of undefined"
    | some none => Except.error "No data available for this symbol"
    | some (some result) =>
      match result.quote with
      | none => Except.error "TypeError: Cannot read properties of undefined"
      | some qt =>
        match currentPriceE result.meta qt with
        | Except.error e => Except.error e
        | Except.ok none =>
          Except.error "TypeError: toFixed is not a function"
        | Except.ok (some cp) =>
          match jsOrNum result.meta.previousClose result.meta.chartPreviousClose with
          | none => Except.error "TypeError: toFixed is not a function"
          | some pc => Except.ok (buildQuote symbol result.meta qt cp pc)

/-- `fetchStockData`: the `catch` converts every internal failure into
the `null` sentinel returned to the caller. -/
def fetchStockData (symbol : String) (resp : UpstreamResponse) : Option Quote :=
  (fetchStockDataE symbol resp).toOption

/-! ## Batch Normalizer (`fetchBatchStocks`) -/

/-- One value of the `stocksObject` mapping: a real quote record, or the
`{error: ...}` marker written for a falsy fetch result. -/
inductive BatchEntry where
  | quote (q : Quote)
  | error (msg : String)
  deriving DecidableEq, Repr

/-- `results[index] ? results[index] : {error: 'Failed to fetch'}` — the
fetch result is a truthy object or `null`. -/
def toEntry : Option Quote → BatchEntry
  | some q => BatchEntry.quote q
  | none => BatchEntry.error "Failed to fetch"

/-- The key list of a JavaScript object modelled as an association
list. -/
def objKeys (m : List (String × BatchEntry)) : List String :=
  m.map Prod.fst

/-- Property read `m[k]` on the modelled object. -/
def objGet (m : List (String × BatchEntry)) (k : String) : Option BatchEntry :=
  (m.find? (fun p => p.1 == k)).map Prod.snd

/-- Property assignment `m[k] = v` on a JavaScript object: overwrite an
existing key in place, otherwise append the key in insertion order. -/
def jsObjInsert : List (String × BatchEntry) → String → BatchEntry →
    List (String × BatchEntry)
  | [], k, v => [(k, v)]
  | p :: rest, k, v =>
    if p.1 = k then (k, v) :: rest else p :: jsObjInsert rest k v

/-- The `symbols.forEach((symbol, index) => ...)` loop assembling
`stocksObject`.  `oracle i` is the upstream response observed by the
`i`-th concurrently launched `fetchStockData` call (two calls for the
same symbol are distinct network fetches, so the oracle is indexed by
call position, exactly like `results[index]`). -/
def batchAssemble (oracle : Nat → UpstreamResponse) :
    Nat → List String → List (String × BatchEntry) → List (String × BatchEntry)
  | _, [], acc => acc
  | i, s :: rest, acc =>
    batchAssemble oracle (i + 1) rest
      (jsObjInsert acc s (toEntry (fetchStockData s (oracle i))))

/-- The `try` body of `fetchBatchStocks` on an iterable symbols list:
fan out one fetch per position, then assemble the object. -/
def fetchBatchStocksOk (oracle : Nat → UpstreamResponse)
    (symbols : List String) : List (String × BatchEntry) :=
  batchAssemble oracle 0 symbols []

/-- The caller-supplied argument of `fetchBatchStocks`: a proper array of
symbols, or a non-iterable value (on which `symbols.map` throws — the
programmer-error case). -/
inductive BatchArg where
  | list (symbols : List String)
  | notIterable
  deriving DecidableEq

/-- `fetchBatchStocks` up to its `catch`: `Except.error` marks the
function-level fault path (the `catch` block). -/
def fetchBatchStocksRun (oracle : Nat → UpstreamResponse) :
    BatchArg → Except String (List (String × BatchEntry))
  | BatchArg.list symbols => Except.ok (fetchBatchStocksOk oracle symbols)
  | BatchArg.notIterable => Except.error "TypeError: symbols.map is not a function"

/-- `fetchBatchStocks` as the caller sees it: the `catch` block returns
the empty object `{}`. -/
def fetchBatchStocks (oracle : Nat → UpstreamResponse) (arg : BatchArg) :
    List (String × BatchEntry) :=
  match fetchBatchStocksRun oracle arg with
  | Except.ok m => m
  | Except.error _ => []

/-! ## Index Aggregator (`fetchIndices`) -/

/-- The projection `{name, price, change, percent}` built for each
successfully fetched index. -/
structure IndexSnapshot where
  name : String
  price : ℚ
  change : ℚ
  percent : ℚ
  deriving DecidableEq, Repr

/-- The fixed internal `indices` list: `(symbol, display name)`. -/
def indicesList : List (String × String) :=
  [("^NSEI", "NIFTY 50"), ("^NSEBANK", "NIFTY BANK"), ("^BSESN", "SENSEX")]

/-- `fetchIndices`: fetch each fixed index (the environment maps an
index symbol to its upstream response), project successes, keep `null`
for failures, then `filter(r => r !== null)`. -/
def fetchIndices (env : String → UpstreamResponse) : List IndexSnapshot :=
  (indicesList.map (fun idx =>
    (fetchStockData idx.1 (env idx.1)).map (fun d =>
      ({ name := idx.2, price := d.ltp, change := d.change,
         percent := d.percent } : IndexSnapshot)))).filterMap id

/-- The entry that position-indexed assembly leaves at key `k`: the
outcome of the last loop iteration whose symbol is `k` (later
`stocksObject[symbol] = ...` assignments overwrite earlier ones).  A
proof-side companion of `batchAssemble`, not part of the source. -/
def lastFetch (oracle : Nat → UpstreamResponse) :
    Nat → List String → String → Option BatchEntry
  | _, [], _ => none
  | i, s :: rest, k =>
    match lastFetch oracle (i + 1) rest k with
    | some e => some e
    | none =>
      if s = k then some (toEntry (fetchStockData s (oracle i))) else none

/-! ## Concrete fixtures used by witnesses and counterexamples -/

/-- A healthy upstream response: truthy `regularMarketPrice` (so the
close array is never consulted), sample arrays with `null` holes. -/
def goodMeta : ChartMeta :=
  { regularMarketPrice := some 100, previousClose := some 80,
    chartPreviousClose := none, longName := some "Good Corp",
    shortName := none, exchangeName := some "NSE", exchange := none }

def goodArrays : ChartQuote :=
  { close := some [some 95, none, some 99],
    high := some [some 101, none, some 104],
    low := some [some 94, none, some 96],
    volume := some [some 100, none, some 50] }

def respGood : UpstreamResponse :=
  { ok := true, status := 200,
    body := some (some { meta := goodMeta, quote := some goodArrays }) }

/-- The quote `fetchStockData` normalizes out of `respGood`. -/
def quoteGood (symbol : String) : Quote :=
  { symbol := symbol, name := "Good Corp", ltp := 100, change := 20,
    percent := 25, exchange := "NSE", previousClose := 80,
    high := some 104, low := some 94, volume := 150 }

/-- Upstream HTTP failure. -/
def respFail : UpstreamResponse := { ok := false, status := 500, body := none }

/-- Upstream 200 with an empty `chart.result` array. -/
def respNoData : UpstreamResponse :=
  { ok := true, status := 200, body := some none }

/-- Well-formed prices, but every optional descriptive field absent. -/
def respBare : UpstreamResponse :=
  { ok := true, status := 200,
    body := some (some
      { meta := { regularMarketPrice := some 250, previousClose := none,
                  chartPreviousClose := some 200, longName := none,
                  shortName := none, exchangeName := none, exchange := none },
        quote := some { close := none, high := none, low := none,
                        volume := none } }) }

/-- No `regularMarketPrice` and a close array whose last sample is
`null`: no usable price at all. -/
def respNoPrice : UpstreamResponse :=
  { ok := true, status := 200,
    body := some (some
      { meta := { regularMarketPrice := none, previousClose := some 90,
                  chartPreviousClose := none, longName := none,
                  shortName := none, exchangeName := none, exchange := none },
        quote := some { close := some [some 95, none], high := none,
                        low := none, volume := none } }) }

/-- The spec's rounding example: `lastPrice = 100.004`,
`previousClose = 90`. -/
def respC3 : UpstreamResponse :=
  { ok := true, status := 200,
    body := some (some
      { meta := { regularMarketPrice := some (25001/250), previousClose := some 90,
                  chartPreviousClose := none, longName := none,
                  shortName := none, exchangeName := none, exchange := none },
        quote := some { close := none, high := none, low := none,
                        volume := none } }) }

/-- What the code returns on `respC3`: `percent` is 11.12, computed
from the unrounded change 10.004. -/
def quoteC3 : Quote :=
  { symbol := "TCS.NS", name := "TCS.NS", ltp := 100, change := 10,
    percent := 278/25, exchange := "Unknown", previousClose := 90,
    high := some (25001/250), low := some (25001/250), volume := 0 }

/-- A second rounding probe: raw price 1.006, previous close 0.002
(stored change 1.00 differs from re-rounding the stored `ltp`). -/
def respC3b : UpstreamResponse :=
  { ok := true, status := 200,
    body := some (some
      { meta := { regularMarketPrice := some (503/500), previousClose := some (1/500),
                  chartPreviousClose := none, longName := none,
                  shortName := none, exchangeName := none, exchange := none },
        quote := some { close := none, high := none, low := none,
                        volume := none } }) }

/-- What the code returns on `respC3b`. -/
def quoteC3b : Quote :=
  { symbol := "T2", name := "T2", ltp := 101/100, change := 1,
    percent := 50200, exchange := "Unknown", previousClose := 0,
    high := some (503/500), low := some (503/500), volume := 0 }

/-- Oracle for batch witnesses: call 0 fails upstream, every later call
succeeds. -/
def oracleMixed : Nat → UpstreamResponse :=
  fun i => if i = 0 then respFail else respGood

/-- Oracle for which every call fails upstream. -/
def oracleAllFail : Nat → UpstreamResponse := fun _ => respFail

/-- Environment (symbol-keyed) for which every index fetch fails. -/
def envAllFail : String → UpstreamResponse := fun _ => respFail

/-- Environment for which every index fetch succeeds. -/
def envAllGood : String → UpstreamResponse := fun _ => respGood

/-! ## Helper lemmas -/

theorem objKeys_nil : objKeys [] = [] := rfl

theorem objKeys_cons (p : String × BatchEntry) (m : List (String × BatchEntry)) :
    objKeys (p :: m) = p.1 :: objKeys m := rfl

theorem objGet_cons (p : String × BatchEntry) (m : List (String × BatchEntry))
    (k : String) :
    objGet (p :: m) k = if p.1 = k then some p.2 else objGet m k := by
  by_cases h : p.1 = k
  · rw [objGet, List.find?_cons_of_pos _ (by simpa using h), if_pos h]
    rfl
  · rw [objGet, List.find?_cons_of_neg _ (by simpa using h), if_neg h]
    rfl

theorem objGet_jsObjInsert_self (m : List (String × BatchEntry)) (k : String)
    (v : BatchEntry) : objGet (jsObjInsert m k v) k = some v := by
  induction m with
  | nil => simp [jsObjInsert, objGet_cons, objGet]
  | cons p rest ih =>
    by_cases h : p.1 = k
    · simp [jsObjInsert, h, objGet_cons]
    · rw [jsObjInsert, if_neg h, objGet_cons, if_neg h]
      exact ih

theorem objGet_jsObjInsert_ne (m : List (String × BatchEntry)) (k k' : String)
    (v : BatchEntry) (hne : k' ≠ k) :
    objGet (jsObjInsert m k v) k' = objGet m k' := by
  induction m with
  | nil => simp [jsObjInsert, objGet_cons, objGet, Ne.symm hne]
  | cons p rest ih =>
    by_cases h : p.1 = k
    · subst h
      simp [jsObjInsert, objGet_cons, Ne.symm hne]
    · rw [jsObjInsert, if_neg h, objGet_cons, objGet_cons]
      by_cases h' : p.1 = k'
      · rw [if_pos h', if_pos h']
      · rw [if_neg h', if_neg h']
        exact ih

theorem mem_objKeys_jsObjInsert (m : List (String × BatchEntry)) (k t : String)
    (v : BatchEntry) :
    t ∈ objKeys (jsObjInsert m k v) ↔ t ∈ objKeys m ∨ t = k := by
  induction m with
  | nil => simp [jsObjInsert, objKeys]
  | cons p rest ih =>
    by_cases h : p.1 = k
    · rw [jsObjInsert, if_pos h, objKeys_cons, objKeys_cons]
      subst h
      simp only [List.mem_cons]
      tauto
    · rw [jsObjInsert, if_neg h, objKeys_cons, objKeys_cons]
      simp only [List.mem_cons, ih]
      tauto

theorem objKeys_jsObjInsert_not_mem (m : List (String × BatchEntry)) (k : String)
    (v : BatchEntry) (hk : k ∉ objKeys m) :
    objKeys (jsObjInsert m k v) = objKeys m ++ [k] := by
  induction m with
  | nil => simp [jsObjInsert, objKeys]
  | cons p rest ih =>
    rw [objKeys_cons, List.mem_cons] at hk
    push_neg at hk
    rw [jsObjInsert, if_neg (Ne.symm hk.1), objKeys_cons, objKeys_cons,
      List.cons_append, ih hk.2]

theorem objKeys_jsObjInsert_mem (m : List (String × BatchEntry)) (k : String)
    (v : BatchEntry) (hk : k ∈ objKeys m) :
    objKeys (jsObjInsert m k v) = objKeys m := by
  induction m with
  | nil => simp [objKeys] at hk
  | cons p rest ih =>
    by_cases h : p.1 = k
    · rw [jsObjInsert, if_pos h, objKeys_cons, objKeys_cons, h]
    · rw [objKeys_cons, List.mem_cons] at hk
      rcases hk with rfl | hk
      · exact absurd rfl h
      · rw [jsObjInsert, if_neg h, objKeys_cons, objKeys_cons, ih hk]

theorem objKeys_jsObjInsert_nodup (m : List (String × BatchEntry)) (k : String)
    (v : BatchEntry) (hm : (objKeys m).Nodup) :
    (objKeys (jsObjInsert m k v)).Nodup := by
  by_cases hk : k ∈ objKeys m
  · rwa [objKeys_jsObjInsert_mem m k v hk]
  · rw [objKeys_jsObjInsert_not_mem m k v hk, List.nodup_append]
    refine ⟨hm, List.nodup_singleton k, ?_⟩
    intro a ha hb
    rw [List.mem_singleton] at hb
    exact hk (hb ▸ ha)

theorem batchAssemble_get (oracle : Nat → UpstreamResponse) :
    ∀ (symbols : List String) (i : Nat) (acc : List (String × BatchEntry))
      (k : String),
      objGet (batchAssemble oracle i symbols acc) k =
        match lastFetch oracle i symbols k with
        | some e => some e
        | none => objGet acc k := by
  intro symbols
  induction symbols with
  | nil => intro i acc k; simp [batchAssemble, lastFetch]
  | cons s rest ih =>
    intro i acc k
    simp only [batchAssemble, lastFetch]
    rw [ih]
    rcases hrest : lastFetch oracle (i + 1) rest k with _ | e
    · by_cases hsk : s = k
      · subst hsk
        simp [objGet_jsObjInsert_self]
      · simp [hsk, objGet_jsObjInsert_ne _ _ _ _ (fun h => hsk h.symm)]
    · simp

theorem lastFetch_of_not_mem (oracle : Nat → UpstreamResponse) :
    ∀ (symbols : List String) (i : Nat) (k : String), k ∉ symbols →
      lastFetch oracle i symbols k = none := by
  intro symbols
  induction symbols with
  | nil => intro i k _; rfl
  | cons s rest ih =>
    intro i k hk
    simp only [List.mem_cons] at hk
    push_neg at hk
    have hs : s ≠ k := Ne.symm hk.1
    simp [lastFetch, ih (i + 1) k hk.2, hs]

theorem lastFetch_of_mem (oracle : Nat → UpstreamResponse) :
    ∀ (symbols : List String) (i : Nat) (k : String), k ∈ symbols →
      ∃ j, symbols[j]? = some k ∧ (∀ j', j < j' → symbols[j']? ≠ some k) ∧
        lastFetch oracle i symbols k =
          some (toEntry (fetchStockData k (oracle (i + j)))) := by
  intro symbols
  induction symbols with
  | nil => intro i k hk; simp at hk
  | cons s rest ih =>
    intro i k hk
    by_cases hr : k ∈ rest
    · obtain ⟨j, hj, hlater, hlf⟩ := ih (i + 1) k hr
      refine ⟨j + 1, by simpa using hj, ?_, ?_⟩
      · intro j' hj'
        match j', hj' with
        | j'' + 1, h =>
          simpa using hlater j'' (Nat.lt_of_succ_lt_succ h)
      · simp only [lastFetch, hlf]
        rw [Nat.add_assoc, Nat.add_comm 1 j]
    · rcases List.mem_cons.mp hk with rfl | h
      · refine ⟨0, by simp, ?_, ?_⟩
        · intro j' hj'
          match j', hj' with
          | j'' + 1, _ =>
            simp only [List.getElem?_cons_succ]
            intro hcon
            obtain ⟨hlt, hget⟩ := List.getElem?_eq_some.mp hcon
            exact hr (hget ▸ List.getElem_mem hlt)
        · simp [lastFetch, lastFetch_of_not_mem oracle rest (i + 1) k hr]
      · exact absurd h hr

theorem batchAssemble_keys_mem (oracle : Nat → UpstreamResponse) :
    ∀ (symbols : List String) (i : Nat) (acc : List (String × BatchEntry))
      (t : String),
      t ∈ objKeys (batchAssemble oracle i symbols acc) ↔
        t ∈ objKeys acc ∨ t ∈ symbols := by
  intro symbols
  induction symbols with
  | nil => intro i acc t; simp [batchAssemble]
  | cons s rest ih =>
    intro i acc t
    simp only [batchAssemble]
    rw [ih, mem_objKeys_jsObjInsert]
    simp only [List.mem_cons]
    tauto

theorem batchAssemble_keys_nodup (oracle : Nat → UpstreamResponse) :
    ∀ (symbols : List String) (i : Nat) (acc : List (String × BatchEntry)),
      (objKeys acc).Nodup →
      (objKeys (batchAssemble oracle i symbols acc)).Nodup := by
  intro symbols
  induction symbols with
  | nil => intro i acc h; simpa [batchAssemble] using h
  | cons s rest ih =>
    intro i acc h
    exact ih (i + 1) _ (objKeys_jsObjInsert_nodup _ _ _ h)

theorem batchAssemble_keys_of_nodup (oracle : Nat → UpstreamResponse) :
    ∀ (symbols : List String) (i : Nat) (acc : List (String × BatchEntry)),
      symbols.Nodup → (∀ s ∈ symbols, s ∉ objKeys acc) →
      objKeys (batchAssemble oracle i symbols acc) = objKeys acc ++ symbols := by
  intro symbols
  induction symbols with
  | nil => intro i acc _ _; simp [batchAssemble]
  | cons s rest ih =>
    intro i acc hnd hfresh
    simp only [List.nodup_cons] at hnd
    simp only [batchAssemble]
    rw [ih (i + 1) _ hnd.2]
    · rw [objKeys_jsObjInsert_not_mem _ _ _ (hfresh s (List.mem_cons_self s rest))]
      simp
    · intro t ht
      rw [mem_objKeys_jsObjInsert]
      push_neg
      exact ⟨hfresh t (List.mem_cons_of_mem s ht), fun h => hnd.1 (h ▸ ht)⟩

theorem jsMathMax_spec :
    ∀ xs : List ℚ, xs ≠ [] →
      ∃ m, jsMathMax xs = some m ∧ m ∈ xs ∧ ∀ x ∈ xs, x ≤ m := by
  intro xs
  induction xs with
  | nil => intro h; exact absurd rfl h
  | cons x rest ih =>
    intro _
    rcases hr : rest with _ | ⟨y, ys⟩
    · exact ⟨x, by simp [jsMathMax], by simp, by simp⟩
    · obtain ⟨m, hm, hmem, hbound⟩ := ih (by simp [hr])
      rw [hr] at hm hmem hbound
      refine ⟨max x m, ?_, ?_, ?_⟩
      · have hstep : jsMathMax (x :: y :: ys) =
            match jsMathMax (y :: ys) with
            | none => some x
            | some m => some (max x m) := rfl
        rw [hstep, hm]
      · rcases max_choice x m with h | h
        · simp [h]
        · simp [h, List.mem_cons_of_mem _ hmem]
      · intro z hz
        rcases List.mem_cons.mp hz with rfl | hz
        · exact le_max_left _ _
        · exact le_trans (hbound z hz) (le_max_right _ _)

theorem jsMathMin_spec :
    ∀ xs : List ℚ, xs ≠ [] →
      ∃ m, jsMathMin xs = some m ∧ m ∈ xs ∧ ∀ x ∈ xs, m ≤ x := by
  intro xs
  induction xs with
  | nil => intro h; exact absurd rfl h
  | cons x rest ih =>
    intro _
    rcases hr : rest with _ | ⟨y, ys⟩
    · exact ⟨x, by simp [jsMathMin], by simp, by simp⟩
    · obtain ⟨m, hm, hmem, hbound⟩ := ih (by simp [hr])
      rw [hr] at hm hmem hbound
      refine ⟨min x m, ?_, ?_, ?_⟩
      · have hstep : jsMathMin (x :: y :: ys) =
            match jsMathMin (y :: ys) with
            | none => some x
            | some m => some (min x m) := rfl
        rw [hstep, hm]
      · rcases min_choice x m with h | h
        · simp [h]
        · simp [h, List.mem_cons_of_mem _ hmem]
      · intro z hz
        rcases List.mem_cons.mp hz with rfl | hz
        · exact min_le_left _ _
        · exact le_trans (min_le_right _ _) (hbound z hz)

theorem jsSumVolume_eq_sum (xs : List (Option ℤ)) :
    jsSumVolume xs = (xs.map (fun v => v.getD 0)).sum := by
  have key : ∀ (ys : List (Option ℤ)) (a : ℤ),
      ys.foldl (fun a b => a + b.getD 0) a = a + (ys.map (fun v => v.getD 0)).sum := by
    intro ys
    induction ys with
    | nil => intro a; simp
    | cons y rest ih =>
      intro a
      simp [List.foldl_cons, ih, add_assoc]
  simpa [jsSumVolume] using key xs 0

theorem fetchStockData_some_shape {symbol : String} {resp : UpstreamResponse}
    {q : Quote} (h : fetchStockData symbol resp = some q) :
    resp.ok = true ∧ ∃ r qt cp pc, resp.body = some (some r) ∧
      r.quote = some qt ∧ currentPriceE r.meta qt = Except.ok (some cp) ∧
      jsOrNum r.meta.previousClose r.meta.chartPreviousClose = some pc ∧
      q = buildQuote symbol r.meta qt cp pc := by
  unfold fetchStockData fetchStockDataE at h
  by_cases hok : resp.ok = false
  · simp [hok, Except.toOption] at h
  · rw [if_neg hok] at h
    rcases hb : resp.body with _ | (_ | r) <;> rw [hb] at h <;> dsimp only at h
    · simp [Except.toOption] at h
    · simp [Except.toOption] at h
    · rcases hqt : r.quote with _ | qt <;> rw [hqt] at h <;> dsimp only at h
      · simp [Except.toOption] at h
      · rcases hcp : currentPriceE r.meta qt with e | (_ | cp) <;> rw [hcp] at h <;>
          dsimp only at h
        · simp [Except.toOption] at h
        · simp [Except.toOption] at h
        · rcases hpc : jsOrNum r.meta.previousClose r.meta.chartPreviousClose
            with _ | pc <;> rw [hpc] at h <;> dsimp only at h
          · simp [Except.toOption] at h
          · simp only [Except.toOption] at h
            exact ⟨Bool.ne_false_iff.mp hok,
              r, qt, cp, pc, hb ▸ rfl, hqt, hcp, hpc, (Option.some.inj h).symm⟩

/-! ## Claim theorems -/

/-- C1: for every list of distinct, non-empty symbol strings and every
combination of per-call upstream outcomes, `fetchBatchStocks` returns a
mapping whose key list equals the input exactly — every requested
symbol appears as a key exactly once — and every key is mapped either
to a Quote record or to an error marker. -/
theorem fetchBatchStocks_keys_exact (oracle : Nat → UpstreamResponse)
    (symbols : List String) (hnd : symbols.Nodup)
    (_hne : ∀ s ∈ symbols, s ≠ "") :
    objKeys (fetchBatchStocksOk oracle symbols) = symbols ∧
    ∀ s ∈ symbols, ∃ e, objGet (fetchBatchStocksOk oracle symbols) s = some e ∧
      ((∃ q, e = BatchEntry.quote q) ∨ (∃ msg, e = BatchEntry.error msg)) := by
  constructor
  · have h := batchAssemble_keys_of_nodup oracle symbols 0 [] hnd
      (by simp [objKeys])
    simpa [fetchBatchStocksOk, objKeys] using h
  · intro s hs
    obtain ⟨j, hj, hlater, hlf⟩ := lastFetch_of_mem oracle symbols 0 s hs
    refine ⟨toEntry (fetchStockData s (oracle (0 + j))), ?_, ?_⟩
    · rw [fetchBatchStocksOk, batchAssemble_get, hlf]
    · cases hfd : fetchStockData s (oracle (0 + j)) with
      | some q => exact Or.inl ⟨q, by simp [toEntry, hfd]⟩
      | none => exact Or.inr ⟨"Failed to fetch", by simp [toEntry, hfd]⟩

/-- C1 witness: two distinct real symbols against an all-success
oracle. -/
theorem fetchBatchStocks_keys_exact_witness :
    objKeys (fetchBatchStocksOk (fun _ => respGood) ["TCS.NS", "RELIANCE.NS"]) =
      ["TCS.NS", "RELIANCE.NS"] :=
  (fetchBatchStocks_keys_exact (fun _ => respGood) ["TCS.NS", "RELIANCE.NS"]
    (by decide) (by decide)).1

/-- C2: if the fetch for `X` fails (for any reason) and the fetch for
`Y` succeeds, the batch of `[X, Y]` still returns through the normal
path, `Y` keeps its real quote, and `X` carries the
`{error: 'Failed to fetch'}` marker. -/
theorem fetchBatchStocks_failure_isolation (oracle : Nat → UpstreamResponse)
    (X Y : String) (qY : Quote) (hxy : X ≠ Y)
    (hX : fetchStockData X (oracle 0) = none)
    (hY : fetchStockData Y (oracle 1) = some qY) :
    fetchBatchStocksRun oracle (BatchArg.list [X, Y]) =
      Except.ok (fetchBatchStocksOk oracle [X, Y]) ∧
    objGet (fetchBatchStocksOk oracle [X, Y]) Y = some (BatchEntry.quote qY) ∧
    objGet (fetchBatchStocksOk oracle [X, Y]) X =
      some (BatchEntry.error "Failed to fetch") := by
  have hform : fetchBatchStocksOk oracle [X, Y] =
      [(X, BatchEntry.error "Failed to fetch"), (Y, BatchEntry.quote qY)] := by
    simp [fetchBatchStocksOk, batchAssemble, jsObjInsert, hX, hY, toEntry, hxy]
  refine ⟨rfl, ?_, ?_⟩
  · rw [hform, objGet_cons, if_neg hxy, objGet_cons, if_pos rfl]
  · rw [hform, objGet_cons, if_pos rfl]

/-- C2 witness: call 0 ("BAD") hits an HTTP 500, call 1 ("GOOD")
succeeds. -/
theorem fetchBatchStocks_failure_isolation_witness :
    objGet (fetchBatchStocksOk oracleMixed ["BAD", "GOOD"]) "GOOD" =
      some (BatchEntry.quote (quoteGood "GOOD")) ∧
    objGet (fetchBatchStocksOk oracleMixed ["BAD", "GOOD"]) "BAD" =
      some (BatchEntry.error "Failed to fetch") :=
  (fetchBatchStocks_failure_isolation oracleMixed "BAD" "GOOD"
    (quoteGood "GOOD") (by decide)
    (by rfl)
    (by norm_num [oracleMixed, fetchStockData, fetchStockDataE, respGood,
      goodMeta, goodArrays, currentPriceE, jsOrNum, jsOrStr, jsStrDefault,
      buildQuote, quoteGood, Except.toOption, round2, round_eq, jsMathMax,
      jsMathMin, jsSumVolume, Quote.mk.injEq]; decide)).2

/-- C7: the batch call reaches its function-level fault path only on
malformed (non-iterable) caller input, never because per-symbol fetches
fail; a symbol all of whose fetches fail still gets an `{error}` value
inside the result. -/
theorem fetchBatchStocks_fault_only_on_bad_input (oracle : Nat → UpstreamResponse) :
    (∀ symbols, fetchBatchStocksRun oracle (BatchArg.list symbols) =
      Except.ok (fetchBatchStocksOk oracle symbols)) ∧
    (∃ msg, fetchBatchStocksRun oracle BatchArg.notIterable = Except.error msg) ∧
    (∀ symbols s, s ∈ symbols → (∀ i, fetchStockData s (oracle i) = none) →
      objGet (fetchBatchStocksOk oracle symbols) s =
        some (BatchEntry.error "Failed to fetch")) := by
  refine ⟨fun symbols => rfl, ⟨_, rfl⟩, ?_⟩
  intro symbols s hs hfail
  obtain ⟨j, hj, hlater, hlf⟩ := lastFetch_of_mem oracle symbols 0 s hs
  rw [fetchBatchStocksOk, batchAssemble_get, hlf, hfail (0 + j)]
  rfl

/-- C7 witness: a single symbol whose every fetch fails upstream is
still present, mapped to the error marker. -/
theorem fetchBatchStocks_fault_only_on_bad_input_witness :
    objGet (fetchBatchStocksOk oracleAllFail ["TCS.NS"]) "TCS.NS" =
      some (BatchEntry.error "Failed to fetch") :=
  (fetchBatchStocks_fault_only_on_bad_input oracleAllFail).2.2 ["TCS.NS"]
    "TCS.NS" (by decide) (fun i => rfl)

/-- C9 (implicit): with duplicate input symbols the batch still returns
through the normal path, the result has exactly one entry per distinct
symbol, and a duplicated symbol's entry is the outcome of its last
occurrence. -/
theorem fetchBatchStocks_duplicates_last_wins (oracle : Nat → UpstreamResponse)
    (symbols : List String) :
    fetchBatchStocksRun oracle (BatchArg.list symbols) =
      Except.ok (fetchBatchStocksOk oracle symbols) ∧
    (objKeys (fetchBatchStocksOk oracle symbols)).Nodup ∧
    (∀ t, t ∈ objKeys (fetchBatchStocksOk oracle symbols) ↔ t ∈ symbols) ∧
    ∀ s ∈ symbols, ∃ j, symbols[j]? = some s ∧
      (∀ j', j < j' → symbols[j']? ≠ some s) ∧
      objGet (fetchBatchStocksOk oracle symbols) s =
        some (toEntry (fetchStockData s (oracle j))) := by
  refine ⟨rfl, ?_, ?_, ?_⟩
  · exact batchAssemble_keys_nodup oracle symbols 0 [] (by simp [objKeys])
  · intro t
    rw [fetchBatchStocksOk, batchAssemble_keys_mem]
    simp [objKeys]
  · intro s hs
    obtain ⟨j, hj, hlater, hlf⟩ := lastFetch_of_mem oracle symbols 0 s hs
    refine ⟨j, hj, hlater, ?_⟩
    rw [fetchBatchStocksOk, batchAssemble_get, hlf]
    simp

/-- C9 witness: `["A", "A"]` where call 0 fails and call 1 succeeds:
one entry remains, holding the successful (last) outcome. -/
theorem fetchBatchStocks_duplicates_last_wins_witness :
    (objKeys (fetchBatchStocksOk oracleMixed ["A", "A"])).Nodup ∧
    objGet (fetchBatchStocksOk oracleMixed ["A", "A"]) "A" =
      some (toEntry (fetchStockData "A" (oracleMixed 1))) := by
  obtain ⟨-, hnd, -, hlast⟩ :=
    fetchBatchStocks_duplicates_last_wins oracleMixed ["A", "A"]
  obtain ⟨j, hj, hlater, hget⟩ := hlast "A" (by decide)
  have hj1 : j = 1 := by
    match j, hj with
    | 0, _ =>
      exact absurd (by decide : (["A", "A"] : List String)[1]? = some "A")
        (hlater 1 (by decide))
    | 1, _ => rfl
    | j'' + 2, hj => simp at hj
  rw [hj1] at hget
  exact ⟨hnd, hget⟩

/-- C6: every failure condition of `fetchStockData` — non-success HTTP
status, malformed/empty body, absent first result entry — collapses to
the same `null` sentinel at the caller boundary (and, more generally,
any internal throw does); when upstream returns no result entries the
internal failure reason is the "no data available" message. -/
theorem fetchStockData_failure_collapse :
    (∀ symbol resp,
      resp.ok = false ∨ resp.body = none ∨ resp.body = some none →
      fetchStockData symbol resp = none) ∧
    (∀ symbol resp msg, fetchStockDataE symbol resp = Except.error msg →
      fetchStockData symbol resp = none) ∧
    (∀ symbol resp, resp.ok = true → resp.body = some none →
      fetchStockDataE symbol resp =
        Except.error "No data available for this symbol") := by
  refine ⟨?_, ?_, ?_⟩
  · intro symbol resp h
    rcases h with h | h | h
    · simp [fetchStockData, fetchStockDataE, h, Except.toOption]
    · rcases hok : resp.ok <;>
        simp [fetchStockData, fetchStockDataE, hok, h, Except.toOption]
    · rcases hok : resp.ok <;>
        simp [fetchStockData, fetchStockDataE, hok, h, Except.toOption]
  · intro symbol resp msg h
    simp [fetchStockData, h, Except.toOption]
  · intro symbol resp hok hb
    simp [fetchStockDataE, hok, hb]

/-- C6 witness: an HTTP 500 yields the sentinel, and an empty result
array yields the "no data available" failure. -/
theorem fetchStockData_failure_collapse_witness :
    fetchStockData "TCS.NS" respFail = none ∧
    fetchStockDataE "TCS.NS" respNoData =
      Except.error "No data available for this symbol" :=
  ⟨fetchStockData_failure_collapse.1 "TCS.NS" respFail (Or.inl rfl),
   fetchStockData_failure_collapse.2.2 "TCS.NS" respNoData rfl rfl⟩

/-- C5: when only the optional descriptive fields are absent the fetch
still succeeds with the fallbacks (`name` falls back to the symbol,
`exchange` to "Unknown"); when the core price fields are entirely
absent (no `regularMarketPrice` and no usable close sample) the fetch
fails instead of returning a partial record. -/
theorem fetchStockData_fallback_policy :
    (∀ symbol resp r qt cp pc,
      resp.ok = true → resp.body = some (some r) → r.quote = some qt →
      currentPriceE r.meta qt = Except.ok (some cp) →
      jsOrNum r.meta.previousClose r.meta.chartPreviousClose = some pc →
      r.meta.longName = none → r.meta.shortName = none →
      r.meta.exchangeName = none → r.meta.exchange = none →
      ∃ q, fetchStockData symbol resp = some q ∧ q.name = symbol ∧
        q.exchange = "Unknown") ∧
    (∀ symbol resp r qt,
      resp.ok = true → resp.body = some (some r) → r.quote = some qt →
      r.meta.regularMarketPrice = none →
      (qt.close = none ∨ ∃ cs, qt.close = some cs ∧ lastSample cs = none) →
      fetchStockData symbol resp = none) := by
  constructor
  · intro symbol resp r qt cp pc hok hb hqt hcp hpc hln hsn hen hex
    refine ⟨buildQuote symbol r.meta qt cp pc, ?_, ?_, ?_⟩
    · rw [fetchStockData, fetchStockDataE, if_neg (by simp [hok]), hb]
      dsimp only
      rw [hqt]
      dsimp only
      rw [hcp]
      dsimp only
      rw [hpc]
      rfl
    · simp [buildQuote, jsOrStr, jsStrDefault, hln, hsn]
    · simp [buildQuote, jsOrStr, jsStrDefault, hen, hex]
  · intro symbol resp r qt hok hb hqt hrmp hclose
    rw [fetchStockData, fetchStockDataE, if_neg (by simp [hok]), hb]
    dsimp only
    rw [hqt]
    dsimp only
    have hcur : currentPriceE r.meta qt = Except.error
        "TypeError: Cannot read properties of undefined" ∨
        currentPriceE r.meta qt = Except.ok none := by
      rcases hclose with h | ⟨cs, hcs, hlast⟩
      · exact Or.inl (by simp [currentPriceE, hrmp, closeLastE, h])
      · exact Or.inr (by simp [currentPriceE, hrmp, closeLastE, hcs, hlast])
    rcases hcur with h | h <;> rw [h] <;> rfl

/-- C5 witness: all descriptive fields absent still yields a record with
the fallbacks; no usable price yields the sentinel. -/
theorem fetchStockData_fallback_policy_witness :
    (∃ q, fetchStockData "WIPRO.NS" respBare = some q ∧ q.name = "WIPRO.NS" ∧
      q.exchange = "Unknown") ∧
    fetchStockData "WIPRO.NS" respNoPrice = none :=
  ⟨fetchStockData_fallback_policy.1 "WIPRO.NS" respBare _ _ 250 200 rfl rfl rfl
      rfl rfl rfl rfl rfl rfl,
   fetchStockData_fallback_policy.2 "WIPRO.NS" respNoPrice _ _ rfl rfl rfl rfl
      (Or.inr ⟨[some 95, none], rfl, rfl⟩)⟩

/-- C4: on every successful fetch, `volume` is the sum of the upstream
per-interval volume samples with `null` samples counted as zero, and is
`0` when the sample array is absent altogether. -/
theorem fetchStockData_volume_sum (symbol : String) (resp : UpstreamResponse)
    (r : ChartResult) (qt : ChartQuote) (q : Quote)
    (hb : resp.body = some (some r)) (hqt : r.quote = some qt)
    (h : fetchStockData symbol resp = some q) :
    (∀ vs, qt.volume = some vs →
      q.volume = (vs.map (fun v => v.getD 0)).sum) ∧
    (qt.volume = none → q.volume = 0) := by
  obtain ⟨hok, r', qt', cp, pc, hb', hqt', hcp, hpc, hq⟩ :=
    fetchStockData_some_shape h
  rw [hb] at hb'
  injection hb' with hb''
  injection hb'' with hb'''
  subst hb'''
  rw [hqt] at hqt'
  injection hqt' with hqt''
  subst hqt''
  subst hq
  constructor
  · intro vs hvs
    simp [buildQuote, hvs, jsSumVolume_eq_sum]
  · intro hvs
    simp [buildQuote, hvs]

/-- C4 witness: samples `[100, null, 50]` sum to 150. -/
theorem fetchStockData_volume_sum_witness :
    (quoteGood "TCS.NS").volume =
      (([some 100, none, some 50] : List (Option ℤ)).map
        (fun v => v.getD 0)).sum :=
  (fetchStockData_volume_sum "TCS.NS" respGood _ goodArrays
    (quoteGood "TCS.NS") rfl rfl
    (by norm_num [fetchStockData, fetchStockDataE, respGood, goodMeta,
      goodArrays, currentPriceE, jsOrNum, jsOrStr, jsStrDefault, buildQuote,
      quoteGood, Except.toOption, round2, round_eq, jsMathMax, jsMathMin,
      jsSumVolume, Quote.mk.injEq]; decide)).1
    [some 100, none, some 50] rfl

/-- C10 (implicit): on every successful fetch, `high` is the maximum
and `low` the minimum of the non-null high/low samples when the sample
arrays are present (and non-degenerate), and both default to the raw,
unrounded current price when the arrays are absent. -/
theorem fetchStockData_high_low (symbol : String) (resp : UpstreamResponse)
    (r : ChartResult) (qt : ChartQuote) (cp : ℚ) (q : Quote)
    (hb : resp.body = some (some r)) (hqt : r.quote = some qt)
    (hcp : currentPriceE r.meta qt = Except.ok (some cp))
    (h : fetchStockData symbol resp = some q) :
    (∀ hs, qt.high = some hs → hs.filterMap id ≠ [] →
      ∃ m, q.high = some m ∧ m ∈ hs.filterMap id ∧
        ∀ x ∈ hs.filterMap id, x ≤ m) ∧
    (qt.high = none → q.high = some cp) ∧
    (∀ ls, qt.low = some ls → ls.filterMap id ≠ [] →
      ∃ m, q.low = some m ∧ m ∈ ls.filterMap id ∧
        ∀ x ∈ ls.filterMap id, m ≤ x) ∧
    (qt.low = none → q.low = some cp) := by
  obtain ⟨hok, r', qt', cp', pc, hb', hqt', hcp', hpc, hq⟩ :=
    fetchStockData_some_shape h
  rw [hb] at hb'
  injection hb' with hb''
  injection hb'' with hb'''
  subst hb'''
  rw [hqt] at hqt'
  injection hqt' with hqt''
  subst hqt''
  rw [hcp] at hcp'
  injection hcp' with hcp''
  injection hcp'' with hcp'''
  subst hcp'''
  subst hq
  refine ⟨?_, ?_, ?_, ?_⟩
  · intro hs hhs hne
    obtain ⟨m, hm, hmem, hbound⟩ := jsMathMax_spec (hs.filterMap id) hne
    exact ⟨m, by simp [buildQuote, hhs, hm], hmem, hbound⟩
  · intro hhs
    simp [buildQuote, hhs]
  · intro ls hls hne
    obtain ⟨m, hm, hmem, hbound⟩ := jsMathMin_spec (ls.filterMap id) hne
    exact ⟨m, by simp [buildQuote, hls, hm], hmem, hbound⟩
  · intro hls
    simp [buildQuote, hls]

/-- C10 witness: on `respC3` the sample arrays are absent and both
fields hold the raw price 100.004, unrounded. -/
theorem fetchStockData_high_low_witness :
    (quoteC3.high = some (25001/250) ∧ quoteC3.low = some (25001/250)) ∧
    quoteC3.high ≠ some (round2 (25001/250)) := by
  have h := fetchStockData_high_low "TCS.NS" respC3 _ _ (25001/250) quoteC3
    rfl rfl (by norm_num [currentPriceE, respC3])
    (by norm_num [fetchStockData, fetchStockDataE, respC3, currentPriceE,
      jsOrNum, jsOrStr, jsStrDefault, buildQuote, quoteC3, Except.toOption,
      round2, round_eq, Quote.mk.injEq])
  refine ⟨⟨h.2.1 rfl, h.2.2.2 rfl⟩, ?_⟩
  norm_num [quoteC3, round2, round_eq]

/-- C3 counterexample: at the spec's own example (`lastPrice = 100.004`,
`previousClose = 90`) the code stores `percent = 11.12`, computed from
the unrounded change 10.004, while re-rounding the stored (rounded)
`change = 10.00` would give 11.11; and on a second input the stored
`change` differs from `round2` applied to the stored `ltp` minus the
previous close. -/
theorem percent_rounding_counterexample :
    fetchStockData "TCS.NS" respC3 = some quoteC3 ∧
    quoteC3.change = 10 ∧
    quoteC3.percent = 1112/100 ∧
    round2 (quoteC3.change / quoteC3.previousClose * 100) = 1111/100 ∧
    quoteC3.percent ≠ round2 (quoteC3.change / quoteC3.previousClose * 100) ∧
    fetchStockData "T2" respC3b = some quoteC3b ∧
    quoteC3b.change = 1 ∧
    round2 (quoteC3b.ltp - 1/500) = 101/100 ∧
    quoteC3b.change ≠ round2 (quoteC3b.ltp - 1/500) := by
  refine ⟨?_, ?_, ?_, ?_, ?_, ?_, ?_, ?_, ?_⟩ <;>
    norm_num [fetchStockData, fetchStockDataE, respC3, respC3b, currentPriceE,
      jsOrNum, jsOrStr, jsStrDefault, buildQuote, quoteC3, quoteC3b,
      Except.toOption, round2, round_eq, Quote.mk.injEq]

/-- C3 amended: on every successful fetch the derived fields are
computed from the raw (pre-rounding) price `cp` and previous close
`pc`: `ltp = round2 cp`, `change = round2 (cp - pc)`,
`percent = round2 ((cp - pc) / pc * 100)` — the percent is rounded only
after dividing the unrounded change — and
`previousClose = round2 pc`.  At the spec's example this gives
`change = 10.00` and `percent = 11.12`. -/
theorem derived_fields_from_raw_price (symbol : String)
    (resp : UpstreamResponse) (r : ChartResult) (qt : ChartQuote)
    (cp pc : ℚ) (q : Quote)
    (hb : resp.body = some (some r)) (hqt : r.quote = some qt)
    (hcp : currentPriceE r.meta qt = Except.ok (some cp))
    (hpc : jsOrNum r.meta.previousClose r.meta.chartPreviousClose = some pc)
    (h : fetchStockData symbol resp = some q) :
    q.ltp = round2 cp ∧ q.change = round2 (cp - pc) ∧
    q.percent = round2 ((cp - pc) / pc * 100) ∧
    q.previousClose = round2 pc := by
  obtain ⟨hok, r', qt', cp', pc', hb', hqt', hcp', hpc', hq⟩ :=
    fetchStockData_some_shape h
  rw [hb] at hb'
  injection hb' with hb''
  injection hb'' with hb'''
  subst hb'''
  rw [hqt] at hqt'
  injection hqt' with hqt''
  subst hqt''
  rw [hcp] at hcp'
  injection hcp' with hcp''
  injection hcp'' with hcp'''
  subst hcp'''
  rw [hpc] at hpc'
  injection hpc' with hpc''
  subst hpc''
  subst hq
  exact ⟨rfl, rfl, rfl, rfl⟩

/-- C3 amended witness: the example input instantiated. -/
theorem derived_fields_from_raw_price_witness :
    quoteC3.ltp = round2 (25001/250) ∧
    quoteC3.change = round2 (25001/250 - 90) ∧
    quoteC3.percent = round2 ((25001/250 - 90) / 90 * 100) ∧
    quoteC3.previousClose = round2 90 :=
  derived_fields_from_raw_price "TCS.NS" respC3 _ _ (25001/250) 90 quoteC3
    rfl rfl (by norm_num [currentPriceE, respC3])
    (by norm_num [jsOrNum, respC3])
    (by norm_num [fetchStockData, fetchStockDataE, respC3, currentPriceE,
      jsOrNum, jsOrStr, jsStrDefault, buildQuote, quoteC3, Except.toOption,
      round2, round_eq, Quote.mk.injEq])

/-- C8: `fetchIndices` yields one snapshot per successfully fetched
index of its fixed 3-entry list, omitting failed indices entirely:
never more entries than the fixed list, the surviving names keep the
fixed declaration order, every success contributes its projected
snapshot, and when all three fail the result is the empty sequence
rather than a failure. -/
theorem fetchIndices_shape (env : String → UpstreamResponse) :
    (fetchIndices env).length ≤ indicesList.length ∧
    (fetchIndices env).length =
      indicesList.countP (fun idx => (fetchStockData idx.1 (env idx.1)).isSome) ∧
    List.Sublist ((fetchIndices env).map IndexSnapshot.name)
      (indicesList.map Prod.snd) ∧
    (∀ idx ∈ indicesList, ∀ d, fetchStockData idx.1 (env idx.1) = some d →
      ({ name := idx.2, price := d.ltp, change := d.change,
         percent := d.percent } : IndexSnapshot) ∈ fetchIndices env) ∧
    ((∀ idx ∈ indicesList, fetchStockData idx.1 (env idx.1) = none) →
      fetchIndices env = []) := by
  rcases h1 : fetchStockData "^NSEI" (env "^NSEI") with _ | d1 <;>
  rcases h2 : fetchStockData "^NSEBANK" (env "^NSEBANK") with _ | d2 <;>
  rcases h3 : fetchStockData "^BSESN" (env "^BSESN") with _ | d3 <;>
    simp [fetchIndices, indicesList, h1, h2, h3, List.countP_cons,
      List.Sublist.cons, List.Sublist.cons₂]

/-- C8 witness: with every index failing upstream the result is the
empty sequence. -/
theorem fetchIndices_shape_witness : fetchIndices envAllFail = [] :=
  (fetchIndices_shape envAllFail).2.2.2.2 (fun _ _ => rfl)

end Trader
